import Mathlib

/-!
Verification of the custom middleware layer of the wa-evolution-api fork:
a shallow embedding of `src/custom/middleware/rate-limit.middleware.ts` and
`src/custom/controllers/health.controller.ts`, with theorems settling the
specification's claims about them.

Modelling conventions:
* Timestamps are `Int`, in milliseconds (`Date.now()`); configured durations
  are in seconds and the code multiplies by 1000 where the source does.
* Calls to external collaborators (the Redis-backed `CacheService`, the
  Prisma repository) are modelled as oracle inputs describing what the call
  would observably do: return a value, return nothing, or throw.
* JavaScript truthiness of strings (`''` and `undefined`/`null` are falsy)
  and of numbers (`0` and `NaN` are falsy) is modelled explicitly.
* Latency measurements and log output are not modelled (pure timing /
  observability, irrelevant to every claim).
-/

/-! ## Rate limiter: data model (rate-limit.middleware.ts, lines 23-34) -/

/-- `RateLimitConfig` from the source, with `points`, `duration` and
`blockDuration` as integers (the operational claims quantify over integer
configurations; `duration` and `blockDuration` are in seconds). -/
structure RateLimitConfig where
  enabled : Bool
  points : Int
  duration : Int
  blockDuration : Int
deriving DecidableEq, Repr

/-- `RateLimitData`, the JSON-encoded per-identity record stored under
`ratelimit:apikey:<identity>`: a request count, the window end (`resetAt`,
ms epoch) and an optional block end (`blockedUntil`, ms epoch). -/
structure RateLimitData where
  count : Int
  resetAt : Int
  blockedUntil : Option Int := none
deriving DecidableEq, Repr

/-- The three request fields `extractApiKey` inspects: the `apikey` header,
the `authorization` header, and the `apikey` query parameter.  `none` models
an absent field (`undefined` in JS). -/
structure Request where
  apikeyHeader : Option String
  authorizationHeader : Option String
  apikeyQuery : Option String
deriving DecidableEq, Repr

/-- JS truthiness of a string-or-undefined value: `undefined` and `''` are
falsy, every other string is truthy. -/
def jsTruthy : Option String → Bool
  | none => false
  | some s => s != ""

/-! ## Bearer-token extraction: the regex `/^Bearer\s+(.+)$/i`
(rate-limit.middleware.ts, line 169).

JS semantics modelled: `\s` is the ECMAScript whitespace class, `.` matches
any character except a line terminator, `$` anchors at the end of the string
(no `m` flag), `\s+` is greedy with backtracking, and `Bearer` is matched
case-insensitively (ASCII case folding). -/

/-- ECMAScript `\s`: WhiteSpace and LineTerminator characters. -/
def isJsSpace (c : Char) : Bool :=
  let n := c.toNat
  n == 0x20 || n == 0x09 || n == 0x0a || n == 0x0b || n == 0x0c || n == 0x0d ||
  n == 0xa0 || n == 0x1680 || (decide (0x2000 ≤ n) && decide (n ≤ 0x200a)) ||
  n == 0x2028 || n == 0x2029 || n == 0x202f || n == 0x205f || n == 0x3000 ||
  n == 0xfeff

/-- ECMAScript LineTerminator characters (which `.` does not match). -/
def isLineTerm (c : Char) : Bool :=
  let n := c.toNat
  n == 0x0a || n == 0x0d || n == 0x2028 || n == 0x2029

/-- Length of the maximal leading run of characters satisfying `p`. -/
def leadCount (p : Char → Bool) : List Char → Nat
  | [] => 0
  | c :: rest => if p c then leadCount p rest + 1 else 0

/-- Backtracking search for the capture of `(.+)$` after the greedy `\s+`:
try consuming `k` whitespace characters, largest `k` first, and accept the
first remainder that is nonempty and free of line terminators. -/
def tryCapture (rest : List Char) : Nat → Option (List Char)
  | 0 => none
  | k + 1 =>
    let cand := rest.drop (k + 1)
    if !cand.isEmpty && cand.all (fun c => !isLineTerm c) then some cand
    else tryCapture rest k

/-- The capture group of `/^Bearer\s+(.+)$/i` applied to `s`, or `none` if
the regex does not match. -/
def bearerCapture (s : String) : Option String :=
  let cs := s.data
  if (cs.take 6).map Char.toLower = "bearer".data then
    let rest := cs.drop 6
    match tryCapture rest (leadCount isJsSpace rest) with
    | some cap => some (String.mk cap)
    | none => none
  else none

/-- `extractApiKey` (rate-limit.middleware.ts, lines 163-181): the `apikey`
header first, then the capture of a Bearer `authorization` header, then the
`apikey` query parameter; a falsy final value yields `null`. -/
def extractApiKey (r : Request) : Option String :=
  let k1 : Option String := r.apikeyHeader
  let k2 : Option String :=
    if !jsTruthy k1 && jsTruthy r.authorizationHeader then
      match bearerCapture (r.authorizationHeader.getD "") with
      | some tok => some tok
      | none => k1
    else k1
  let k3 : Option String :=
    if !jsTruthy k2 && jsTruthy r.apikeyQuery then r.apikeyQuery else k2
  if jsTruthy k3 then k3 else none

/-! ## Rate limiter: consume and middleware
(rate-limit.middleware.ts, lines 63-158) -/

/-- What the `cache.get` + `JSON.parse` step of `consume` observably did:
`getThrew` (store unreachable / timeout), `absent` (no record: `get`
returned `null`, `undefined` or `''`, all falsy), `corrupt` (`JSON.parse`
threw on the stored string), or a parsed record. -/
inductive ReadObs where
  | getThrew
  | absent
  | corrupt
  | record (d : RateLimitData)
deriving DecidableEq, Repr

/-- The truthy-and-in-the-future test `data.blockedUntil &&
data.blockedUntil > now` (lines 122 and 86); note `blockedUntil = 0` is
falsy in JS. -/
def blockedActive (d : RateLimitData) (now : Int) : Bool :=
  match d.blockedUntil with
  | some b => b != 0 && decide (now < b)
  | none => false

/-- `consume` (lines 110-158): read the record, return it unchanged if the
identity is blocked (before any write), otherwise reset an expired window or
increment the count — setting `blockedUntil = now + blockDuration * 1000`
when the new count exceeds `points` — and persist.  A thrown `get`, a parse
failure, or a thrown `set` (`setThrows`, only reached on paths that write)
propagates as an error. -/
def consume (cfg : RateLimitConfig) (now : Int) (obs : ReadObs)
    (setThrows : Bool) : Except Unit RateLimitData :=
  match obs with
  | .getThrew => .error ()
  | .corrupt => .error ()
  | .record data =>
    if blockedActive data now then
      .ok data
    else
      let data2 :=
        if data.resetAt ≤ now then
          { count := 1, resetAt := now + cfg.duration * 1000,
            blockedUntil := none }
        else
          let c := data.count + 1
          if cfg.points < c then
            { data with count := c,
                        blockedUntil := some (now + cfg.blockDuration * 1000) }
          else
            { data with count := c }
      if setThrows then .error () else .ok data2
  | .absent =>
    let data2 : RateLimitData :=
      { count := 1, resetAt := now + cfg.duration * 1000, blockedUntil := none }
    if setThrows then .error () else .ok data2

/-- The three `X-RateLimit-*` headers set on line 80-84: the configured
quota, `max(0, points - count)`, and the window reset time. -/
structure RateHeaders where
  limit : Int
  remaining : Int
  reset : Int
deriving DecidableEq, Repr

/-- Observable outcome of one middleware invocation: `passthrough` calls
`next()` without touching the response; `admitted` calls `next()` after
setting the rate-limit headers; `rejected` responds 429 with the headers and
a `Retry-After` value. -/
inductive Outcome where
  | passthrough
  | admitted (h : RateHeaders)
  | rejected (h : RateHeaders) (retryAfter : Int)
deriving DecidableEq, Repr

/-- The headers carried by an outcome, if any. -/
def headersOf : Outcome → Option RateHeaders
  | .passthrough => none
  | .admitted h => some h
  | .rejected h _ => some h

/-- `middleware` (lines 63-105): skip when disabled or when no API key is
extracted; otherwise consume a point, set the headers, and reject with 429
and `Retry-After = ceil((blockedUntil - now) / 1000)` when the result is
actively blocked.  Any error thrown inside the `try` admits the request
(fail-open, lines 100-104) — and since `consume` threw before line 80, no
headers were set. -/
def middleware (cfg : RateLimitConfig) (r : Request) (now : Int)
    (obs : ReadObs) (setThrows : Bool) : Outcome :=
  if !cfg.enabled then .passthrough
  else
    match extractApiKey r with
    | none => .passthrough
    | some _ =>
      match consume cfg now obs setThrows with
      | .error _ => .passthrough
      | .ok result =>
        let h : RateHeaders :=
          { limit := cfg.points
            remaining := max 0 (cfg.points - result.count)
            reset := result.resetAt }
        match result.blockedUntil with
        | some b =>
          if b != 0 && decide (now < b) then
            .rejected h ((b - now + 999) / 1000)
          else .admitted h
        | none => .admitted h

/-! ## Healthy-store trace of one identity's record

When every store interaction succeeds, the record stored after a request
equals the record `consume` returns (on the blocked path nothing is written,
but the returned record is exactly the stored one). -/

/-- The record `consume` computes when the store is healthy, as a pure
state-transition function on the identity's stored record. -/
def stepRecord (cfg : RateLimitConfig) (now : Int) :
    Option RateLimitData → RateLimitData
  | none =>
    { count := 1, resetAt := now + cfg.duration * 1000, blockedUntil := none }
  | some data =>
    if blockedActive data now then data
    else if data.resetAt ≤ now then
      { count := 1, resetAt := now + cfg.duration * 1000, blockedUntil := none }
    else
      let c := data.count + 1
      if cfg.points < c then
        { data with count := c,
                    blockedUntil := some (now + cfg.blockDuration * 1000) }
      else
        { data with count := c }

/-- The read observation a healthy store produces from a stored record. -/
def obsOf : Option RateLimitData → ReadObs
  | none => .absent
  | some d => .record d

/-- One full middleware invocation against a healthy store, returning the
outcome and the identity's stored record afterwards. -/
def healthyStep (cfg : RateLimitConfig) (r : Request) (now : Int)
    (st : Option RateLimitData) : Outcome × Option RateLimitData :=
  if cfg.enabled && (extractApiKey r).isSome then
    (middleware cfg r now (obsOf st) false, some (stepRecord cfg now st))
  else
    (middleware cfg r now (obsOf st) false, st)

/-- Stored record of one identity after the `n`-th request (0-indexed) of a
request sequence at times `t 0, t 1, …`, starting from no record. -/
def stateTrace (cfg : RateLimitConfig) (t : Nat → Int) : Nat → RateLimitData
  | 0 => stepRecord cfg (t 0) none
  | n + 1 => stepRecord cfg (t (n + 1)) (some (stateTrace cfg t n))

/-- Middleware outcome of the `n`-th request of that same sequence. -/
def outcomeTrace (cfg : RateLimitConfig) (r : Request) (t : Nat → Int) :
    Nat → Outcome
  | 0 => middleware cfg r (t 0) .absent false
  | n + 1 => middleware cfg r (t (n + 1)) (.record (stateTrace cfg t n)) false

/-- The `X-RateLimit-Remaining` value computed from a record (line 82). -/
def remainingOf (cfg : RateLimitConfig) (d : RateLimitData) : Int :=
  max 0 (cfg.points - d.count)

/-! ## Health controller (health.controller.ts)

Each probe catches every thrown error itself, so `Promise.allSettled` only
ever sees fulfilled promises; the probes are modelled directly.  Latency
values and error message strings are omitted (pure observability). -/

/-- A probe's reported `status` field: `'ok'`, `'error'`, or `'disabled'`
(the dependency was never wired in). -/
inductive ProbeStatus where
  | ok
  | err
  | disabled
deriving DecidableEq, Repr

/-- Whether an external call modelled as `Except` threw. -/
def exceptThrew {α : Type} : Except Unit α → Bool
  | .error _ => true
  | .ok _ => false

/-- `checkDatabase` (lines 128-143): `disabled` when no repository is
configured; otherwise `ok` if the trivial bounded read succeeds and `err`
if it throws. -/
def checkDatabase (present : Bool) (queryRes : Except Unit Unit) : ProbeStatus :=
  if !present then .disabled
  else
    match queryRes with
    | .ok _ => .ok
    | .error _ => .err

/-- `checkRedis` (lines 148-166): `disabled` when no cache is configured;
otherwise write `health:check:<ts>` with value `'ok'` and TTL 10, read the
key back, delete it.  The value returned by the read is discarded (line
157); the probe reports `err` exactly when one of the three calls throws. -/
def checkRedis (present : Bool) (setRes : Except Unit Unit)
    (getRes : Except Unit (Option String)) (delRes : Except Unit Unit) :
    ProbeStatus :=
  if !present then .disabled
  else
    match setRes with
    | .error _ => .err
    | .ok _ =>
      match getRes with
      | .error _ => .err
      | .ok _ =>
        match delRes with
        | .error _ => .err
        | .ok _ => .ok

/-- `checkInstances` (lines 171-196): `disabled` when no monitor is
configured; `ok` with a tally of open connection states otherwise, or `err`
if reading the registry throws. -/
def checkInstances (present : Bool) (threw : Bool) (openFlags : List Bool) :
    ProbeStatus :=
  if !present then .disabled
  else if threw then .err
  else .ok

/-- The `total`/`connected`/`disconnected` tally of `checkInstances`
(lines 183-191). -/
def instanceTally (openFlags : List Bool) : Nat × Nat × Nat :=
  let total := openFlags.length
  let connected := (openFlags.filter (fun b => b)).length
  (total, connected, total - connected)

/-- Result of `readiness` (lines 88-123): the `ready` flag and the HTTP
status code. -/
structure ReadinessResult where
  ready : Bool
  code : Nat
deriving DecidableEq, Repr

/-- `readiness`: ready with 200 exactly when both mandatory probes report
`'ok'`; otherwise 503 with `ready: false` (line 98-113). -/
def readiness (db redis : ProbeStatus) : ReadinessResult :=
  if db == .ok && redis == .ok then { ready := true, code := 200 }
  else { ready := false, code := 503 }

/-- Result of the detailed `check` (lines 34-69): the aggregate status flag
(`healthy`/`unhealthy`) and the HTTP status code. -/
structure HealthResult where
  healthy : Bool
  code : Nat
deriving DecidableEq, Repr

/-- `check`: `isHealthy = database.status === 'ok' && redis.status ===
'ok'` (line 46) — the instances probe result is reported but never
consulted for the aggregate; 200 when healthy, 503 otherwise. -/
def checkAggregate (db redis instances : ProbeStatus) : HealthResult :=
  if db == .ok && redis == .ok then { healthy := true, code := 200 }
  else { healthy := false, code := 503 }

/-! ## Constructor configuration (rate-limit.middleware.ts, lines 41-58)

`Number(process.env.X) || default`: the environment value is converted with
the ECMAScript `Number` string conversion (`StringNumericLiteral` grammar),
and the default replaces any falsy result (`NaN`, `0`, `-0`). -/

/-- A JavaScript number as produced by `Number(string)`: `NaN`, an
infinity, or a finite value represented exactly as `mantissa × 10 ^ exp10`
(`finite m e` denotes the real number `m * 10 ^ e`).  The representation is
exact rather than float64: rounding of non-representable values (and
underflow or overflow of extreme exponents) is not modelled — the checks the code
performs on these numbers (zero test, comparison against the quota) are
unaffected for the configuration values at stake. -/
inductive JsNum where
  | nan
  | posInf
  | negInf
  | finite (m : Int) (e : Int)
deriving DecidableEq, Repr

/-- Strip leading and trailing ECMAScript whitespace (StrWhiteSpace). -/
def trimWs (l : List Char) : List Char :=
  ((l.dropWhile isJsSpace).reverse.dropWhile isJsSpace).reverse

/-- Value of a list of decimal digits. -/
def digitsVal (l : List Char) : Nat :=
  l.foldl (fun a c => a * 10 + (c.toNat - '0'.toNat)) 0

/-- Apply an optional ExponentPart to a parsed mantissa/scale pair; fails
unless the remainder is exactly a well-formed exponent (or empty). -/
def applyExp (m : Int) (e : Int) (r : List Char) : Option (Int × Int) :=
  match r with
  | [] => some (m, e)
  | c :: r2 =>
    if c == 'e' || c == 'E' then
      let sr : Int × List Char :=
        match r2 with
        | '+' :: t => (1, t)
        | '-' :: t => (-1, t)
        | t => (1, t)
      let ds := sr.2.takeWhile Char.isDigit
      if ds.isEmpty || !(sr.2.drop ds.length).isEmpty then none
      else some (m, e + sr.1 * (digitsVal ds : Int))
    else none

/-- Parse an unsigned StrUnsignedDecimalLiteral (digits, optional fraction,
optional exponent) into mantissa and decimal exponent; the whole input must
be consumed. -/
def parseUnsignedDec (l : List Char) : Option (Int × Int) :=
  let ip := l.takeWhile Char.isDigit
  let r1 := l.drop ip.length
  match r1 with
  | '.' :: r2 =>
    let fp := r2.takeWhile Char.isDigit
    let r3 := r2.drop fp.length
    if ip.isEmpty && fp.isEmpty then none
    else
      applyExp ((digitsVal ip * 10 ^ fp.length + digitsVal fp : Nat) : Int)
        (-(fp.length : Int)) r3
  | _ =>
    if ip.isEmpty then none else applyExp ((digitsVal ip : Nat) : Int) 0 r1

/-- Parse a radix-prefixed integer body (after `0x`/`0o`/`0b`); the whole
input must be consumed and at least one digit is required. -/
def parseRadix (base : Nat) (digitOk : Char → Bool) (dval : Char → Nat)
    (l : List Char) : Option Nat :=
  let ds := l.takeWhile digitOk
  if ds.isEmpty || !(l.drop ds.length).isEmpty then none
  else some (ds.foldl (fun a c => a * base + dval c) 0)

/-- Hexadecimal digit value. -/
def hexDigitVal (c : Char) : Nat :=
  if c.isDigit then c.toNat - '0'.toNat
  else if 'a' ≤ c && c ≤ 'f' then c.toNat - 'a'.toNat + 10
  else if 'A' ≤ c && c ≤ 'F' then c.toNat - 'A'.toNat + 10
  else 0

/-- A signed decimal literal or signed `Infinity`. -/
def parseSignedDec (l : List Char) : JsNum :=
  let sb : Int × List Char :=
    match l with
    | '+' :: t => (1, t)
    | '-' :: t => (-1, t)
    | t => (1, t)
  if sb.2 = "Infinity".data then
    if sb.1 = 1 then .posInf else .negInf
  else
    match parseUnsignedDec sb.2 with
    | some me => .finite (sb.1 * me.1) me.2
    | none => .nan

/-- ECMAScript `Number(string)` (`StringNumericLiteral`): trim whitespace;
empty means `0`; an unsigned `0x`/`0o`/`0b` literal; otherwise a signed
decimal literal or `Infinity`; anything else is `NaN`. -/
def jsStringToNumber (s : String) : JsNum :=
  match trimWs s.data with
  | [] => .finite 0 0
  | '0' :: x :: rest =>
    if x == 'x' || x == 'X' then
      match parseRadix 16
          (fun c => c.isDigit || ('a' ≤ c && c ≤ 'f') || ('A' ≤ c && c ≤ 'F'))
          hexDigitVal rest with
      | some v => .finite (v : Int) 0
      | none => .nan
    else if x == 'o' || x == 'O' then
      match parseRadix 8 (fun c => '0' ≤ c && c ≤ '7')
          (fun c => c.toNat - '0'.toNat) rest with
      | some v => .finite (v : Int) 0
      | none => .nan
    else if x == 'b' || x == 'B' then
      match parseRadix 2 (fun c => c == '0' || c == '1')
          (fun c => c.toNat - '0'.toNat) rest with
      | some v => .finite (v : Int) 0
      | none => .nan
    else parseSignedDec ('0' :: x :: rest)
  | l => parseSignedDec l

/-- `Number(env)` where `env` is `process.env.X`: `undefined` converts to
`NaN`. -/
def jsToNumber : Option String → JsNum
  | none => .nan
  | some s => jsStringToNumber s

/-- `Number(env) || dflt` (lines 47-49): the default replaces a falsy
conversion result (`NaN` or zero — a finite value is zero exactly when its
mantissa is); any other value — negative, fractional, or infinite — is
kept. -/
def resolveLimitValue (env : Option String) (dflt : Int) : JsNum :=
  match jsToNumber env with
  | .nan => .finite dflt 0
  | .finite m e => if m = 0 then .finite dflt 0 else .finite m e
  | x => x

/-- The four `RATE_LIMIT_*` environment variables (absent = `none`). -/
structure EnvConfig where
  rateLimitEnabled : Option String
  rateLimitPoints : Option String
  rateLimitDuration : Option String
  rateLimitBlockDuration : Option String
deriving DecidableEq, Repr

/-- The configuration the constructor resolves (lines 45-51, with no
`config` override argument): `enabled` is the strict comparison with
`'true'`; the three numeric fields fall back to 100, 60, 60. -/
structure ResolvedLimits where
  enabled : Bool
  points : JsNum
  duration : JsNum
  blockDuration : JsNum
deriving DecidableEq, Repr

/-- The resolved constructor configuration. -/
def resolveConfig (e : EnvConfig) : ResolvedLimits :=
  { enabled := e.rateLimitEnabled == some "true"
    points := resolveLimitValue e.rateLimitPoints 100
    duration := resolveLimitValue e.rateLimitDuration 60
    blockDuration := resolveLimitValue e.rateLimitBlockDuration 60 }

/-- Strict positivity of a resolved value (`m × 10 ^ e` is positive exactly
when its mantissa is). -/
def jsNumPositive : JsNum → Bool
  | .finite m _ => decide (0 < m)
  | .posInf => true
  | _ => false

/-! ## Concrete fixtures used by witness theorems -/

/-- An enabled configuration with a quota of 2 requests per 60s window. -/
def cfgEx : RateLimitConfig :=
  { enabled := true, points := 2, duration := 60, blockDuration := 60 }

/-- A request identified by the `apikey` header `"k"`. -/
def reqEx : Request :=
  { apikeyHeader := some "k", authorizationHeader := none, apikeyQuery := none }

/-- A request carrying no credential at all. -/
def reqAnon : Request :=
  { apikeyHeader := none, authorizationHeader := none, apikeyQuery := none }

/-- A request burst with every request at time 0 (within one window). -/
def tEx : Nat → Int := fun _ => 0

/-! # Theorems -/

/-! ## Shared helper lemmas -/

/-- Against a healthy store, `consume` succeeds and returns exactly the
record `stepRecord` computes. -/
theorem consume_obsOf (cfg : RateLimitConfig) (now : Int)
    (st : Option RateLimitData) :
    consume cfg now (obsOf st) false = .ok (stepRecord cfg now st) := by
  cases st with
  | none => rfl
  | some d =>
    by_cases hb : blockedActive d now = true <;>
      simp [consume, stepRecord, obsOf, hb]

/-- With rate limiting enabled, an extracted key, a successful consume and
no active block on the returned record, the middleware admits. -/
theorem middleware_ok_admitted (cfg : RateLimitConfig) (r : Request)
    (now : Int) (obs : ReadObs) (setThrows : Bool) (k : String)
    (res : RateLimitData) (hen : cfg.enabled = true)
    (hk : extractApiKey r = some k)
    (hc : consume cfg now obs setThrows = .ok res)
    (hbn : res.blockedUntil = none) :
    middleware cfg r now obs setThrows =
      .admitted { limit := cfg.points,
                  remaining := max 0 (cfg.points - res.count),
                  reset := res.resetAt } := by
  simp [middleware, hen, hk, hc, hbn]

/-- With rate limiting enabled, an extracted key, a successful consume and
an active block on the returned record, the middleware rejects with 429. -/
theorem middleware_ok_rejected (cfg : RateLimitConfig) (r : Request)
    (now : Int) (obs : ReadObs) (setThrows : Bool) (k : String)
    (res : RateLimitData) (b : Int) (hen : cfg.enabled = true)
    (hk : extractApiKey r = some k)
    (hc : consume cfg now obs setThrows = .ok res)
    (hbs : res.blockedUntil = some b) (hb0 : b ≠ 0) (hnb : now < b) :
    middleware cfg r now obs setThrows =
      .rejected { limit := cfg.points,
                  remaining := max 0 (cfg.points - res.count),
                  reset := res.resetAt } ((b - now + 999) / 1000) := by
  simp [middleware, hen, hk, hc, hbs, hb0, hnb]

/-- With rate limiting enabled, an extracted key and a successful consume,
the middleware sets the three rate-limit headers from the returned record
and then either admits or rejects. -/
theorem middleware_ok_headers (cfg : RateLimitConfig) (r : Request)
    (now : Int) (obs : ReadObs) (setThrows : Bool) (k : String)
    (res : RateLimitData) (hen : cfg.enabled = true)
    (hk : extractApiKey r = some k)
    (hc : consume cfg now obs setThrows = .ok res) :
    headersOf (middleware cfg r now obs setThrows) =
      some { limit := cfg.points, remaining := max 0 (cfg.points - res.count),
             reset := res.resetAt } := by
  cases hb : res.blockedUntil with
  | none =>
    rw [middleware_ok_admitted cfg r now obs setThrows k res hen hk hc hb]
    rfl
  | some b =>
    by_cases hcond : (b != 0 && decide (now < b)) = true
    · have hcond2 := hcond
      simp only [Bool.and_eq_true, bne_iff_ne, decide_eq_true_eq] at hcond2
      rw [middleware_ok_rejected cfg r now obs setThrows k res b hen hk hc hb
        hcond2.1 hcond2.2]
      rfl
    · simp [middleware, hen, hk, hc, hb, hcond, headersOf]

/-- When no API key is extracted, the middleware passes through untouched
whatever the store would have done. -/
theorem middleware_no_key (cfg : RateLimitConfig) (r : Request) (now : Int)
    (obs : ReadObs) (setThrows : Bool) (hk : extractApiKey r = none) :
    middleware cfg r now obs setThrows = .passthrough := by
  unfold middleware
  rw [hk]
  cases cfg.enabled <;> simp

/-- When no API key is extracted, a healthy-store invocation passes through
and leaves the stored record unchanged. -/
theorem healthyStep_no_key (cfg : RateLimitConfig) (r : Request) (now : Int)
    (st : Option RateLimitData) (hk : extractApiKey r = none) :
    healthyStep cfg r now st = (Outcome.passthrough, st) := by
  unfold healthyStep
  rw [hk]
  simp [middleware_no_key cfg r now (obsOf st) false hk]

/-- `tryCapture` only returns nonempty captures. -/
theorem tryCapture_ne_nil (rest : List Char) :
    ∀ (k : Nat) (cap : List Char), tryCapture rest k = some cap → cap ≠ [] := by
  intro k
  induction k with
  | zero => intro cap h; exact absurd h (by simp [tryCapture])
  | succ k ih =>
    intro cap h
    unfold tryCapture at h
    by_cases hc : (!(rest.drop (k + 1)).isEmpty &&
        (rest.drop (k + 1)).all fun c => !isLineTerm c) = true
    · rw [if_pos hc] at h
      cases h
      intro hnil
      rw [hnil] at hc
      simp at hc
    · rw [if_neg hc] at h
      exact ih cap h

/-- The capture of the Bearer regex is never the empty string. -/
theorem bearerCapture_ne_empty (a tok : String)
    (h : bearerCapture a = some tok) : tok ≠ "" := by
  unfold bearerCapture at h
  by_cases hpre : (a.data.take 6).map Char.toLower = "bearer".data
  · rw [if_pos hpre] at h
    cases hcap : tryCapture (a.data.drop 6) (leadCount isJsSpace (a.data.drop 6)) with
    | none => exact absurd h (by simp [hcap])
    | some cap =>
      simp only [hcap, Option.some.injEq] at h
      subst h
      have hne := tryCapture_ne_nil _ _ _ hcap
      intro hempty
      exact hne (congrArg String.data hempty)
  · rw [if_neg hpre] at h
    cases h

/-! ## Claim C2 -/

/-- C2: if any interaction with the shared store errors — an unreachable
store (`getThrew`), a stored record whose JSON fails to parse (`corrupt`),
or a thrown persist — the middleware admits the request by calling `next()`
with no 429 response produced. -/
theorem rateLimit_store_error_fails_open (cfg : RateLimitConfig)
    (r : Request) (now : Int) (obs : ReadObs) (setThrows : Bool)
    (h : obs = .getThrew ∨ obs = .corrupt ∨
      ∃ e, consume cfg now obs setThrows = .error e) :
    middleware cfg r now obs setThrows = .passthrough := by
  have herr : consume cfg now obs setThrows = .error () := by
    rcases h with h | h | ⟨e, h⟩
    · subst h; rfl
    · subst h; rfl
    · cases e; exact h
  by_cases hen : cfg.enabled = true
  · cases hx : extractApiKey r with
    | none => exact middleware_no_key cfg r now obs setThrows hx
    | some k => simp [middleware, hen, hx, herr]
  · simp only [Bool.not_eq_true] at hen
    simp [middleware, hen]

/-- Witness for C2: a concrete enabled request whose store read throws is
admitted. -/
theorem rateLimit_store_error_fails_open_witness :
    middleware cfgEx reqEx 0 .getThrew false = .passthrough :=
  rateLimit_store_error_fails_open cfgEx reqEx 0 .getThrew false (Or.inl rfl)

/-! ## Claim C3 -/

/-- C3 counterexample: the cache probe does not inspect the value the read
returns — a read that succeeds with a value other than `"ok"` (here `null`,
and also `"unexpected"`) still yields probe status `ok`, contradicting the
claim that it would report `error`. -/
theorem checkRedis_ignores_read_value :
    checkRedis true (Except.ok ()) (Except.ok none) (Except.ok ()) =
      ProbeStatus.ok ∧
    checkRedis true (Except.ok ()) (Except.ok (some "unexpected"))
      (Except.ok ()) ≠ ProbeStatus.err := by
  exact ⟨rfl, by decide⟩

/-- C3 (amended): the cache probe writes the ephemeral key, reads it back
and deletes it, and reports `error` exactly when one of the three calls
throws; the value returned by the read is never compared to `"ok"` — the
probe result is independent of it. -/
theorem checkRedis_error_iff_throw (s : Except Unit Unit)
    (g : Except Unit (Option String)) (d : Except Unit Unit) :
    checkRedis true s g d =
      (if exceptThrew s || exceptThrew g || exceptThrew d then ProbeStatus.err
       else ProbeStatus.ok) ∧
    ∀ v w : Option String,
      checkRedis true s (.ok v) d = checkRedis true s (.ok w) d := by
  constructor
  · cases s <;> cases g <;> cases d <;> rfl
  · intro v w
    cases s <;> cases d <;> rfl

/-! ## Claim C4 -/

/-- C4 counterexample: with the relational store not configured, its probe
reports `disabled` — neither probe fails — yet readiness returns 503. -/
theorem readiness_disabled_503 :
    (readiness (checkDatabase false (Except.ok ()))
        (checkRedis true (Except.ok ()) (Except.ok (some "ok"))
          (Except.ok ()))).code = 503 ∧
    checkDatabase false (Except.ok ()) ≠ ProbeStatus.err ∧
    checkRedis true (Except.ok ()) (Except.ok (some "ok")) (Except.ok ()) ≠
      ProbeStatus.err := by
  exact ⟨rfl, by decide, by decide⟩

/-- C4 (amended): readiness returns 503 with ready=false iff at least one
of the two mandatory probes reports a status other than `ok` (an error or
an unconfigured, `disabled`, dependency), and 200 with ready=true iff both
report `ok`. -/
theorem readiness_failure_iff_nonok (dbPresent cachePresent : Bool)
    (q s d : Except Unit Unit) (g : Except Unit (Option String)) :
    (readiness (checkDatabase dbPresent q) (checkRedis cachePresent s g d) =
        { ready := false, code := 503 } ↔
      (checkDatabase dbPresent q ≠ .ok ∨ checkRedis cachePresent s g d ≠ .ok)) ∧
    (readiness (checkDatabase dbPresent q) (checkRedis cachePresent s g d) =
        { ready := true, code := 200 } ↔
      (checkDatabase dbPresent q = .ok ∧ checkRedis cachePresent s g d = .ok)) := by
  have h : ∀ db rd : ProbeStatus,
      (readiness db rd = { ready := false, code := 503 } ↔
        (db ≠ .ok ∨ rd ≠ .ok)) ∧
      (readiness db rd = { ready := true, code := 200 } ↔
        (db = .ok ∧ rd = .ok)) := by
    intro db rd
    cases db <;> cases rd <;> exact ⟨by decide, by decide⟩
  exact h _ _

/-! ## Claim C5 -/

/-- C5 counterexample: with the relational store not configured, its probe
reports `disabled` — neither mandatory probe fails — yet the detailed
check's aggregate is unhealthy. -/
theorem checkAggregate_disabled_unhealthy :
    (checkAggregate (checkDatabase false (Except.ok ()))
        (checkRedis true (Except.ok ()) (Except.ok (some "ok"))
          (Except.ok ()))
        ProbeStatus.ok).healthy = false ∧
    checkDatabase false (Except.ok ()) ≠ ProbeStatus.err ∧
    checkRedis true (Except.ok ()) (Except.ok (some "ok")) (Except.ok ()) ≠
      ProbeStatus.err := by
  exact ⟨rfl, by decide, by decide⟩

/-- C5 (amended): the detailed health aggregate is unhealthy (with a 503)
iff the relational store probe or the cache probe reports a status other
than `ok` (error, or `disabled` when unconfigured); the instances probe
result never influences the aggregate. -/
theorem checkAggregate_unhealthy_iff (db redis inst : ProbeStatus) :
    ((checkAggregate db redis inst).healthy = false ↔
      (db ≠ .ok ∨ redis ≠ .ok)) ∧
    ((checkAggregate db redis inst).code = 503 ↔
      (checkAggregate db redis inst).healthy = false) ∧
    (∀ inst2, checkAggregate db redis inst = checkAggregate db redis inst2) := by
  refine ⟨?_, ?_, fun inst2 => rfl⟩
  · cases db <;> cases redis <;> cases inst <;> decide
  · cases db <;> cases redis <;> cases inst <;> decide

/-! ## Claim C6 -/

/-- C6 counterexample: a request with no credential at all is processed by
the enabled middleware and admitted (passthrough to `next()`), but the
response carries no rate-limit headers. -/
theorem middleware_headers_counterexample :
    middleware cfgEx reqAnon 0 .absent false = Outcome.passthrough ∧
    headersOf (middleware cfgEx reqAnon 0 .absent false) = none := by
  exact ⟨rfl, rfl⟩

/-- C6 (amended): every identified request whose store interaction succeeds
carries the three rate-limit headers — the configured quota, the remaining
allowance `max 0 (points − count)`, and the window reset time — whether it
is admitted or rejected; a request with no extracted identity, or one whose
store interaction errors, is admitted with no rate-limit headers. -/
theorem rateLimit_headers_contract (cfg : RateLimitConfig) (r : Request)
    (now : Int) (obs : ReadObs) (setThrows : Bool) :
    (∀ k res, cfg.enabled = true → extractApiKey r = some k →
      consume cfg now obs setThrows = .ok res →
      headersOf (middleware cfg r now obs setThrows) =
        some { limit := cfg.points,
               remaining := max 0 (cfg.points - res.count),
               reset := res.resetAt }) ∧
    (extractApiKey r = none →
      headersOf (middleware cfg r now obs setThrows) = none) ∧
    (∀ e, consume cfg now obs setThrows = .error e →
      headersOf (middleware cfg r now obs setThrows) = none) := by
  refine ⟨fun k res hen hk hc =>
    middleware_ok_headers cfg r now obs setThrows k res hen hk hc,
    fun hk => ?_, fun e hc => ?_⟩
  · rw [middleware_no_key cfg r now obs setThrows hk]
    rfl
  · by_cases hen : cfg.enabled = true
    · cases hx : extractApiKey r with
      | none =>
        rw [middleware_no_key cfg r now obs setThrows hx]
        rfl
      | some k => simp [middleware, hen, hx, hc, headersOf]
    · simp only [Bool.not_eq_true] at hen
      simp [middleware, hen, headersOf]

/-- Witness for C6 (amended) at a concrete first request. -/
theorem rateLimit_headers_contract_witness :
    headersOf (middleware cfgEx reqEx 0 .absent false) =
      some { limit := cfgEx.points, remaining := max 0 (cfgEx.points - 1),
             reset := 60000 } :=
  (rateLimit_headers_contract cfgEx reqEx 0 .absent false).1 "k"
    { count := 1, resetAt := 60000, blockedUntil := none } rfl rfl rfl

/-! ## Claim C8 -/

/-- Characterization of `extractApiKey` as a first-truthy-match cascade:
the `apikey` header if truthy, else the Bearer capture of a truthy
`authorization` header, else a truthy `apikey` query parameter, else
`null`. -/
theorem extractApiKey_cases (r : Request) :
    extractApiKey r =
      (if jsTruthy r.apikeyHeader then r.apikeyHeader
       else
         match (if jsTruthy r.authorizationHeader then
             bearerCapture (r.authorizationHeader.getD "") else none) with
         | some tok => some tok
         | none => if jsTruthy r.apikeyQuery then r.apikeyQuery else none) := by
  by_cases hth : jsTruthy r.apikeyHeader = true
  · simp [extractApiKey, hth]
  · simp only [Bool.not_eq_true] at hth
    by_cases hta : jsTruthy r.authorizationHeader = true
    · cases hb : bearerCapture (r.authorizationHeader.getD "") with
      | some tok =>
        have htok : jsTruthy (some tok) = true := by
          simp [jsTruthy, bearerCapture_ne_empty _ _ hb]
        simp [extractApiKey, hth, hta, hb, htok]
      | none =>
        by_cases htq : jsTruthy r.apikeyQuery = true
        · simp [extractApiKey, hth, hta, hb, htq]
        · simp only [Bool.not_eq_true] at htq
          simp [extractApiKey, hth, hta, hb, htq]
    · simp only [Bool.not_eq_true] at hta
      by_cases htq : jsTruthy r.apikeyQuery = true
      · simp [extractApiKey, hth, hta, htq]
      · simp only [Bool.not_eq_true] at htq
        simp [extractApiKey, hth, hta, htq]

/-- C8: identity extraction follows the ordered preference — the dedicated
`apikey` header first, then a Bearer-scheme `authorization` header, then
the `apikey` query parameter — with the first (truthy) match winning; and a
request in which no identity is found is admitted unconditionally, with no
quota consumed: the middleware passes through and the stored record is
unchanged. -/
theorem extractApiKey_ordered_preference :
    (∀ (r : Request) (s : String), r.apikeyHeader = some s → s ≠ "" →
      extractApiKey r = some s) ∧
    (∀ (r : Request) (a tok : String), jsTruthy r.apikeyHeader = false →
      r.authorizationHeader = some a → a ≠ "" → bearerCapture a = some tok →
      extractApiKey r = some tok) ∧
    (∀ (r : Request) (q : String), jsTruthy r.apikeyHeader = false →
      (∀ a : String, r.authorizationHeader = some a → bearerCapture a = none) →
      r.apikeyQuery = some q → q ≠ "" → extractApiKey r = some q) ∧
    (∀ (cfg : RateLimitConfig) (r : Request) (now : Int) (obs : ReadObs)
        (setThrows : Bool), extractApiKey r = none →
      middleware cfg r now obs setThrows = Outcome.passthrough) ∧
    (∀ (cfg : RateLimitConfig) (r : Request) (now : Int)
        (st : Option RateLimitData), extractApiKey r = none →
      healthyStep cfg r now st = (Outcome.passthrough, st)) := by
  refine ⟨?_, ?_, ?_, ?_, ?_⟩
  · intro r s hh hs
    have ht : jsTruthy (some s) = true := by simp [jsTruthy, hs]
    simp [extractApiKey, hh, ht]
  · intro r a tok hh ha hane hcap
    have hta : jsTruthy (some a) = true := by simp [jsTruthy, hane]
    have htok : jsTruthy (some tok) = true := by
      simp [jsTruthy, bearerCapture_ne_empty a tok hcap]
    simp [extractApiKey, hh, ha, hta, hcap, htok]
  · intro r q hh hnb hq hqne
    have htq : jsTruthy (some q) = true := by simp [jsTruthy, hqne]
    cases ha : r.authorizationHeader with
    | none =>
      simp [extractApiKey_cases r, hh, ha, hq, htq,
        show jsTruthy none = false from rfl]
    | some a =>
      by_cases haq : a = ""
      · subst haq
        simp [extractApiKey_cases r, hh, ha, hq, htq,
          show jsTruthy (some "") = false from rfl]
      · have hta : jsTruthy (some a) = true := by simp [jsTruthy, haq]
        simp [extractApiKey_cases r, hh, ha, hta, hnb a ha, hq, htq]
  · intro cfg r now obs setThrows hk
    exact middleware_no_key cfg r now obs setThrows hk
  · intro cfg r now st hk
    exact healthyStep_no_key cfg r now st hk

/-- Witness for C8: each extraction branch and the no-identity passthrough
at concrete requests. -/
theorem extractApiKey_ordered_preference_witness :
    extractApiKey reqEx = some "k" ∧
    extractApiKey ⟨none, some "Bearer tok", some "q"⟩ = some "tok" ∧
    extractApiKey ⟨none, none, some "q"⟩ = some "q" ∧
    middleware cfgEx reqAnon 0 .absent false = Outcome.passthrough ∧
    healthyStep cfgEx reqAnon 0 none = (Outcome.passthrough, none) := by
  refine ⟨extractApiKey_ordered_preference.1 reqEx "k" rfl (by decide),
    extractApiKey_ordered_preference.2.1 _ "Bearer tok" "tok" rfl rfl
      (by decide) (by decide),
    extractApiKey_ordered_preference.2.2.1 _ "q" rfl
      (fun a ha => nomatch ha) rfl (by decide),
    extractApiKey_ordered_preference.2.2.2.1 cfgEx reqAnon 0 .absent false
      (by decide),
    extractApiKey_ordered_preference.2.2.2.2 cfgEx reqAnon 0 none (by decide)⟩

/-! ## Claim C9 -/

/-- C9 counterexample: a request whose `apikey` header is present but equal
to the empty string, alongside a Bearer authorization header, extracts the
Bearer token — not the null identity the claim asserts. -/
theorem extractApiKey_empty_header_counterexample :
    extractApiKey ⟨some "", some "Bearer tok", none⟩ = some "tok" ∧
    extractApiKey ⟨some "", some "Bearer tok", none⟩ ≠ none := by
  exact ⟨by decide, by decide⟩

/-- C9 (amended): an empty-string credential header or query parameter is
treated exactly as an absent one — extraction falls through to the
remaining methods, so a later nonempty credential still wins; and whenever
every method yields nothing the identity is null and the request passes
through admitted, with no rate-limit headers and the stored record
unchanged. -/
theorem extractApiKey_empty_as_absent :
    (∀ r : Request,
      extractApiKey { r with apikeyHeader := some "" } =
        extractApiKey { r with apikeyHeader := none }) ∧
    (∀ r : Request,
      extractApiKey { r with apikeyQuery := some "" } =
        extractApiKey { r with apikeyQuery := none }) ∧
    (∀ (cfg : RateLimitConfig) (r : Request) (now : Int)
        (st : Option RateLimitData), extractApiKey r = none →
      healthyStep cfg r now st = (Outcome.passthrough, st) ∧
      headersOf (healthyStep cfg r now st).1 = none) := by
  refine ⟨?_, ?_, fun cfg r now st hk => ?_⟩
  · intro r
    rw [extractApiKey_cases, extractApiKey_cases]
    simp [show jsTruthy (some "") = false from rfl,
      show jsTruthy none = false from rfl]
  · intro r
    rw [extractApiKey_cases, extractApiKey_cases]
    simp [show jsTruthy (some "") = false from rfl,
      show jsTruthy none = false from rfl]
  · have hs := healthyStep_no_key cfg r now st hk
    rw [hs]
    exact ⟨rfl, rfl⟩

/-- Witness for C9 (amended) at concrete requests. -/
theorem extractApiKey_empty_as_absent_witness :
    extractApiKey ⟨some "", none, some "q"⟩ =
      extractApiKey ⟨none, none, some "q"⟩ ∧
    (healthyStep cfgEx reqAnon 7 none = (Outcome.passthrough, none) ∧
      headersOf (healthyStep cfgEx reqAnon 7 none).1 = none) := by
  exact ⟨extractApiKey_empty_as_absent.1 ⟨some "x", none, some "q"⟩,
    extractApiKey_empty_as_absent.2.2 cfgEx reqAnon 7 none (by decide)⟩

/-! ## Claim C10 -/

/-- C10 counterexample: setting the quota environment variable to `"-1"`
resolves to the quota −1 — the resolved configuration is not strictly
positive. -/
theorem resolveConfig_negative_points :
    (resolveConfig ⟨none, some "-1", none, none⟩).points =
      JsNum.finite (-1) 0 ∧
    jsNumPositive (resolveConfig ⟨none, some "-1", none, none⟩).points =
      false := by
  exact ⟨by decide, by decide⟩

/-- C10 (amended): an unset, non-numeric (`NaN`) or zero environment value
falls back to the default (100 for the quota, 60 for the durations) — in
particular a quota of `"0"` yields 100 — but any other numeric value,
including a negative or fractional one, passes through unchanged, so the
resolved values are not guaranteed strictly positive. -/
theorem resolveLimit_fallback_rules (env : Option String) (dflt : Int) :
    (jsToNumber env = .nan → resolveLimitValue env dflt = .finite dflt 0) ∧
    (∀ e : Int, jsToNumber env = .finite 0 e →
      resolveLimitValue env dflt = .finite dflt 0) ∧
    (∀ m e : Int, m ≠ 0 → jsToNumber env = .finite m e →
      resolveLimitValue env dflt = .finite m e) ∧
    (resolveConfig ⟨none, some "0", none, none⟩).points = .finite 100 0 ∧
    (resolveConfig ⟨none, none, none, none⟩).points = .finite 100 0 ∧
    (resolveConfig ⟨none, some "abc", none, none⟩).points = .finite 100 0 := by
  refine ⟨fun h => ?_, fun e h => ?_, fun m e hm h => ?_, by decide,
    by decide, by decide⟩
  · simp [resolveLimitValue, h]
  · simp [resolveLimitValue, h]
  · simp [resolveLimitValue, h, hm]

/-- Witness for C10 (amended): a negative quota passes through. -/
theorem resolveLimit_fallback_rules_witness :
    resolveLimitValue (some "-5") 100 = JsNum.finite (-5) 0 :=
  (resolveLimit_fallback_rules (some "-5") 100).2.2.1 (-5) 0 (by decide)
    (by decide)

/-! ## Claims C1 and C7: request traces of one identity within one window -/

/-- A step taken strictly before the window end preserves `resetAt` and
never decreases `count`. -/
theorem stepRecord_preserves (cfg : RateLimitConfig) (now : Int)
    (d : RateLimitData) (hwin : now < d.resetAt) :
    (stepRecord cfg now (some d)).resetAt = d.resetAt ∧
    d.count ≤ (stepRecord cfg now (some d)).count := by
  unfold stepRecord
  by_cases hb : blockedActive d now = true
  · simp [hb]
  · simp only [Bool.not_eq_true] at hb
    simp only [hb, Bool.false_eq_true, if_false]
    rw [if_neg (not_le.mpr hwin)]
    split <;> refine ⟨rfl, ?_⟩ <;> simp

/-- While every request arrives before the first window's end, the stored
record's `resetAt` stays at the window end established by the first
request. -/
theorem stateTrace_resetAt (cfg : RateLimitConfig) (t : Nat → Int)
    (hwin : ∀ n, t n < t 0 + cfg.duration * 1000) :
    ∀ n, (stateTrace cfg t n).resetAt = t 0 + cfg.duration * 1000 := by
  intro n
  induction n with
  | zero => rfl
  | succ n ih =>
    have hw : t (n + 1) < (stateTrace cfg t n).resetAt := by
      rw [ih]
      exact hwin (n + 1)
    have h := stepRecord_preserves cfg (t (n + 1)) (stateTrace cfg t n) hw
    calc (stateTrace cfg t (n + 1)).resetAt
        = (stepRecord cfg (t (n + 1)) (some (stateTrace cfg t n))).resetAt :=
          rfl
      _ = (stateTrace cfg t n).resetAt := h.1
      _ = t 0 + cfg.duration * 1000 := ih

/-- Within one window the stored count never decreases. -/
theorem stateTrace_count_mono (cfg : RateLimitConfig) (t : Nat → Int)
    (hwin : ∀ n, t n < t 0 + cfg.duration * 1000) :
    ∀ n, (stateTrace cfg t n).count ≤ (stateTrace cfg t (n + 1)).count := by
  intro n
  have hw : t (n + 1) < (stateTrace cfg t n).resetAt := by
    rw [stateTrace_resetAt cfg t hwin n]
    exact hwin (n + 1)
  exact (stepRecord_preserves cfg (t (n + 1)) (stateTrace cfg t n) hw).2

/-- Before the quota is reached, the fresh-identity trace within one window
is exactly an unblocked counter: after request `i` (0-indexed) the record
holds `count = i + 1`, the first request's window end, and no block. -/
theorem stateTrace_fresh (cfg : RateLimitConfig) (t : Nat → Int) (p : Nat)
    (hp : cfg.points = (p : Int))
    (hwin : ∀ n, n ≤ p → t n < t 0 + cfg.duration * 1000) :
    ∀ i, i < p → stateTrace cfg t i =
      { count := (i : Int) + 1, resetAt := t 0 + cfg.duration * 1000,
        blockedUntil := none } := by
  intro i
  induction i with
  | zero =>
    intro h0
    show stepRecord cfg (t 0) none = _
    unfold stepRecord
    norm_num
  | succ i ih =>
    intro hsucc
    have hi : i < p := Nat.lt_of_succ_lt hsucc
    have hprev := ih hi
    show stepRecord cfg (t (i + 1)) (some (stateTrace cfg t i)) = _
    rw [hprev]
    have hw : t (i + 1) < t 0 + cfg.duration * 1000 :=
      hwin (i + 1) (Nat.le_of_lt hsucc)
    have hle : ¬(cfg.points < (i : Int) + 1 + 1) := by
      rw [hp]
      omega
    simp only [stepRecord, blockedActive]
    rw [if_neg (by simp), if_neg (not_le.mpr hw), if_neg hle]
    push_cast
    rfl

/-- C7: for an identified caller against a healthy store, with every
request of the sequence inside the first request's window, the
`X-RateLimit-Remaining` value reported on successive requests is exactly
the one carried in each response's headers, is monotonically non-increasing
across the sequence, and is never negative (including while blocked). -/
theorem remaining_monotone_within_window (cfg : RateLimitConfig)
    (r : Request) (t : Nat → Int) (k : String)
    (hen : cfg.enabled = true) (hk : extractApiKey r = some k)
    (hwin : ∀ n, t n < t 0 + cfg.duration * 1000) :
    (∀ n, 0 ≤ remainingOf cfg (stateTrace cfg t n)) ∧
    (∀ n, remainingOf cfg (stateTrace cfg t (n + 1)) ≤
      remainingOf cfg (stateTrace cfg t n)) ∧
    (∀ n, headersOf (outcomeTrace cfg r t n) =
      some { limit := cfg.points,
             remaining := remainingOf cfg (stateTrace cfg t n),
             reset := (stateTrace cfg t n).resetAt }) := by
  refine ⟨fun n => le_max_left 0 _, fun n => ?_, fun n => ?_⟩
  · have hc := stateTrace_count_mono cfg t hwin n
    unfold remainingOf
    exact max_le_max le_rfl (by omega)
  · cases n with
    | zero =>
      exact middleware_ok_headers cfg r (t 0) .absent false k
        (stateTrace cfg t 0) hen hk (consume_obsOf cfg (t 0) none)
    | succ n =>
      exact middleware_ok_headers cfg r (t (n + 1))
        (.record (stateTrace cfg t n)) false k (stateTrace cfg t (n + 1))
        hen hk (consume_obsOf cfg (t (n + 1)) (some (stateTrace cfg t n)))

/-- Witness for C7 at a concrete burst of requests at time 0. -/
theorem remaining_monotone_within_window_witness :
    0 ≤ remainingOf cfgEx (stateTrace cfgEx tEx 0) ∧
    remainingOf cfgEx (stateTrace cfgEx tEx 1) ≤
      remainingOf cfgEx (stateTrace cfgEx tEx 0) ∧
    headersOf (outcomeTrace cfgEx reqEx tEx 0) =
      some { limit := cfgEx.points,
             remaining := remainingOf cfgEx (stateTrace cfgEx tEx 0),
             reset := (stateTrace cfgEx tEx 0).resetAt } := by
  have h := remaining_monotone_within_window cfgEx reqEx tEx "k" rfl rfl
    (fun n => show (0 : Int) < 0 + 60 * 1000 by decide)
  exact ⟨h.1 0, h.2.1 0, h.2.2 0⟩

/-- C1: for every caller identity and configuration, when exactly `points`
requests have been admitted within the current window (a fresh identity's
first `points` requests, all inside the first request's window), the
`(points+1)`-th request in the same window is rejected with 429, and at
that moment the record's `blockedUntil` is set to `now + blockDuration`
(timestamps in ms: `now + blockDuration * 1000`). -/
theorem rateLimit_points_then_block (cfg : RateLimitConfig) (r : Request)
    (t : Nat → Int) (k : String) (p : Nat)
    (hen : cfg.enabled = true) (hk : extractApiKey r = some k)
    (hp : cfg.points = (p : Int)) (hppos : 0 < p)
    (hbpos : 0 < cfg.blockDuration) (ht0 : 0 ≤ t 0)
    (hmono : ∀ n, t n ≤ t (n + 1))
    (hwin : ∀ n, n ≤ p → t n < t 0 + cfg.duration * 1000) :
    (∀ i, i < p → ∃ h, outcomeTrace cfg r t i = Outcome.admitted h) ∧
    (stateTrace cfg t p).blockedUntil =
      some (t p + cfg.blockDuration * 1000) ∧
    (∃ h ra, outcomeTrace cfg r t p = Outcome.rejected h ra) := by
  have hfresh := stateTrace_fresh cfg t p hp hwin
  obtain ⟨m, hm⟩ : ∃ m, p = m + 1 :=
    ⟨p - 1, (Nat.succ_pred_eq_of_pos hppos).symm⟩
  subst hm
  have hprev := hfresh m (Nat.lt_succ_self m)
  have hw : t (m + 1) < t 0 + cfg.duration * 1000 := hwin (m + 1) le_rfl
  have hstep : stateTrace cfg t (m + 1) =
      { count := (m : Int) + 1 + 1, resetAt := t 0 + cfg.duration * 1000,
        blockedUntil := some (t (m + 1) + cfg.blockDuration * 1000) } := by
    show stepRecord cfg (t (m + 1)) (some (stateTrace cfg t m)) = _
    rw [hprev]
    have hgt : cfg.points < (m : Int) + 1 + 1 := by
      rw [hp]
      omega
    simp only [stepRecord, blockedActive]
    rw [if_neg (by simp), if_neg (not_le.mpr hw), if_pos hgt]
  have htpos : 0 ≤ t (m + 1) :=
    le_trans ht0 (monotone_nat_of_le_succ hmono (Nat.zero_le (m + 1)))
  have hbval : (0 : Int) < t (m + 1) + cfg.blockDuration * 1000 := by omega
  refine ⟨?_, ?_, ?_⟩
  · intro i hip
    have hst := hfresh i hip
    cases i with
    | zero =>
      refine ⟨_, middleware_ok_admitted cfg r (t 0) .absent false k
        (stateTrace cfg t 0) hen hk (consume_obsOf cfg (t 0) none) ?_⟩
      rw [hst]
    | succ j =>
      refine ⟨_, middleware_ok_admitted cfg r (t (j + 1))
        (.record (stateTrace cfg t j)) false k (stateTrace cfg t (j + 1))
        hen hk (consume_obsOf cfg (t (j + 1)) (some (stateTrace cfg t j)))
        ?_⟩
      rw [hst]
  · rw [hstep]
  · refine ⟨_, _, middleware_ok_rejected cfg r (t (m + 1))
      (.record (stateTrace cfg t m)) false k (stateTrace cfg t (m + 1))
      (t (m + 1) + cfg.blockDuration * 1000) hen hk
      (consume_obsOf cfg (t (m + 1)) (some (stateTrace cfg t m)))
      ?_ (ne_of_gt hbval) (by omega)⟩
    rw [hstep]

/-- Witness for C1: quota 2, three requests at time 0 — the first two are
admitted, the third is rejected and blocks the identity for 60s. -/
theorem rateLimit_points_then_block_witness :
    (∀ i, i < 2 → ∃ h, outcomeTrace cfgEx reqEx tEx i = Outcome.admitted h) ∧
    (stateTrace cfgEx tEx 2).blockedUntil =
      some (tEx 2 + cfgEx.blockDuration * 1000) ∧
    (∃ h ra, outcomeTrace cfgEx reqEx tEx 2 = Outcome.rejected h ra) :=
  rateLimit_points_then_block cfgEx reqEx tEx "k" 2 rfl rfl (by decide)
    (by decide) (by decide) (by decide) (fun n => le_refl 0)
    (fun n hn => show (0 : Int) < 0 + 60 * 1000 by decide)
